import Mathlib

/-!
A shallow embedding of huak's environment-resolution engine and of the
`clean-pycache` command, translated from `src/src/huak/env/venv.rs` and
`src/src/bin/huak/commands/clean_pycache.rs`, together with theorems settling
the frozen claims about them.

Filesystem paths are modelled as lists of components from the root: `[]` is the
filesystem root, so `[].dropLast`-style parents stop there, matching
`Path::parent` returning `None` at a root.  The ambient filesystem and the
external-process runner are abstracted into explicit function-valued inputs, and
every operation that runs external commands returns, alongside its result, the
ordered trace of observable events (commands run, install attempts made).
-/

deriving instance DecidableEq for Except

/-- Modelled from the spec: the repository's path rendering helpers
(`utils::path::to_string`, `Path::display`) are not under `src/`; a path is
rendered as its components joined by a separator. -/
def pathStr (p : List String) : String :=
  String.intercalate "/" p

/-- The constant from `src/src/huak/env/venv.rs` bounding the ancestor search
(the source spells it with this typo). -/
def DEFUALT_SEARCH_STEPS : Nat := 5

/-- `BIN_NAME` from `src/src/huak/env/venv.rs`. -/
def BIN_NAME : String := "bin"

/-- `WINDOWS_BIN_NAME` from `src/src/huak/env/venv.rs`. -/
def WINDOWS_BIN_NAME : String := "Scripts"

/-- The `Venv` struct from `src/src/huak/env/venv.rs`: a wrapper around the
root path of a Python virtual environment. -/
structure Venv where
  path : List String
deriving DecidableEq

/-- `Venv::new` from `src/src/huak/env/venv.rs`. -/
def Venv.new (path : List String) : Venv :=
  ⟨path⟩

/-- Modelled from the spec: `utils::path::search_parents_for_filepath` is not
under `src/`.  Per spec section 4.1 the per-name search probes the starting
directory and then each successive parent, bounded by a step count, and returns
the first (nearest) hit.  The filesystem probe is abstracted as `probe`; a
`.error` result of the probe models an I/O failure, mirroring the
`Result<Option<PathBuf>>` return type of the source function. -/
def search_parents_for_filepath (probe : List String → Except String Bool)
    (start : List String) (name : String) (steps : Nat) :
    Except String (Option (List String)) :=
  match probe (start ++ [name]) with
  | .error e => .error e
  | .ok true => .ok (some (start ++ [name]))
  | .ok false =>
    match steps, start with
    | 0, _ => .ok none
    | _ + 1, [] => .ok none
    | steps + 1, _ :: _ => search_parents_for_filepath probe start.dropLast name steps

/-- The `for name in &names` loop inside `Venv::find`
(`src/src/huak/env/venv.rs`): an `Ok(Some(path))` search result returns
immediately; any other result (`Ok(None)` or `Err(_)`) falls through to the
next candidate name. -/
def findLoop (probe : List String → Except String Bool) (start : List String) :
    List String → Option (List String)
  | [] => none
  | name :: rest =>
    match search_parents_for_filepath probe start name DEFUALT_SEARCH_STEPS with
    | .ok (some path) => some path
    | _ => findLoop probe start rest

/-- `Venv::find` from `src/src/huak/env/venv.rs`: try the candidate names
`".venv"` then `"venv"`, each with the bounded parent search; when no candidate
hits, fail with the generic message naming the searched root. -/
def Venv.find (probe : List String → Except String Bool) (start : List String) :
    Except String Venv :=
  match findLoop probe start [".venv", "venv"] with
  | some path => .ok (Venv.new path)
  | none => .error ("could not find venv from " ++ pathStr start)

/-- Observable events of the lifecycle / dispatch operations: external commands
run (program, arguments, working directory) and entries into
`install_package` made by `exec_module` for a missing module. -/
inductive Event where
  | ran : String → List String → List String → Event
  | installAttempt : String → Event
deriving DecidableEq

/-- The ambient world of the lifecycle / dispatch operations: path existence on
the filesystem, the external-process runner (`utils::command::run_command`,
whose failure carries an optional underlying cause, matching the
`CliError { error: Option<Error>, .. }` it returns), the process working
directory, and the OS name that `consts::OS` reports. -/
structure World where
  pathExists : List String → Bool
  runOk : String → List String → List String → Except (Option String) Unit
  cwd : List String
  os : String

/-- `PythonEnvironment::bin_path` for `Venv` (`src/src/huak/env/venv.rs`):
`Scripts` on Windows, `bin` elsewhere. -/
def Venv.bin_path (v : Venv) (w : World) : List String :=
  if w.os = "windows" then v.path ++ [WINDOWS_BIN_NAME] else v.path ++ [BIN_NAME]

/-- Modelled from the spec: `utils::path::parse_filename` is not under `src/`;
the spec's data model derives an environment's name as the final path
component. -/
def parse_filename (p : List String) : Except String String :=
  match p.getLast? with
  | some n => .ok n
  | none => .error "invalid path"

/-- `Venv::name` from `src/src/huak/env/venv.rs`. -/
def Venv.name (v : Venv) : Except String String :=
  parse_filename v.path

/-- `Venv::create` from `src/src/huak/env/venv.rs`.  If the root path already
exists it returns success immediately (no event).  Otherwise it takes the
parent of the root (failing with "invalid venv path" when there is none — in
the list model the parent and the final component are absent exactly together,
so the source's parent check and `name()?` collapse to one `getLast?` match)
and runs `python -m venv <name>` with the parent as working directory; a run
failure propagates the underlying cause when present, else the generic
"failed to create venv" error, via `unwrap_or_else`. -/
def Venv.create (v : Venv) (w : World) : List Event × Except String Unit :=
  if w.pathExists v.path then ([], .ok ())
  else
    match v.path.getLast? with
    | none => ([], .error "invalid venv path")
    | some name =>
      let args := ["-m", "venv", name]
      match w.runOk "python" args v.path.dropLast with
      | .ok _ => ([Event.ran "python" args v.path.dropLast], .ok ())
      | .error e =>
        ([Event.ran "python" args v.path.dropLast],
          .error (e.getD "failed to create venv"))

/-- The `PythonPackage` struct (its module `package::python` is not under
`src/`; the spec's Package Descriptor is a name plus a version string where the
empty string means unconstrained). -/
structure PythonPackage where
  name : String
  version : String
deriving DecidableEq

/-- Modelled from the spec: `PythonPackage::new` (not under `src/`) builds a
descriptor with an unconstrained (empty) version, as `exec_module` uses it. -/
def PythonPackage.new (name : String) : PythonPackage :=
  ⟨name, ""⟩

/-- The `module_str` computation inside `Venv::install_package`
(`src/src/huak/env/venv.rs`): the bare name when the version is empty,
`name==version` otherwise. -/
def module_str (dependency : PythonPackage) : String :=
  if dependency.version = "" then dependency.name
  else dependency.name ++ "==" ++ dependency.version

/-- `PythonEnvironment::exec_module` for `Venv` (`src/src/huak/env/venv.rs`):
ensure the venv exists via `create`, compute the module path under `bin_path`,
install the module (as a bare package, `install_package` inlined at the
recursive call) when that path does not exist, then run the module path with
the given arguments from the given directory.  The mutual recursion with
`install_package` is bounded by `fuel`: at fuel `0` the model stops with a
"recursion limit" error and an empty trace, so the trace produced at any finite
fuel is an initial segment of the untruncated execution's trace.  An
`installAttempt` event marks each entry into `install_package`. -/
def Venv.exec_module (v : Venv) (w : World) :
    Nat → String → List String → List String → List Event × Except String Unit
  | 0, _, _, _ => ([], .error "recursion limit")
  | fuel + 1, module, args, start =>
    let created := Venv.create v w
    match created.2 with
    | .error e => (created.1, .error e)
    | .ok _ =>
      let module_path := Venv.bin_path v w ++ [module]
      let installed :=
        if w.pathExists module_path then ([], Except.ok ())
        else
          let dep := PythonPackage.new module
          let call := Venv.exec_module v w fuel "pip" ["install", module_str dep] w.cwd
          (Event.installAttempt module :: call.1, call.2)
      match installed.2 with
      | .error e => (created.1 ++ installed.1, .error e)
      | .ok _ =>
        match w.runOk (pathStr module_path) args start with
        | .ok _ =>
          (created.1 ++ installed.1 ++ [Event.ran (pathStr module_path) args start], .ok ())
        | .error e =>
          (created.1 ++ installed.1 ++ [Event.ran (pathStr module_path) args start],
            .error (e.getD "command failed"))

/-- `PythonEnvironment::install_package` for `Venv`
(`src/src/huak/env/venv.rs`): run the `pip` module with `install` and the
pinned `module_str`, from the current working directory. -/
def Venv.install_package (v : Venv) (w : World) (fuel : Nat)
    (dependency : PythonPackage) : List Event × Except String Unit :=
  Venv.exec_module v w fuel "pip" ["install", module_str dependency] w.cwd

/-- The install attempts recorded in a trace, in order. -/
def installEvents (trace : List Event) : List String :=
  trace.filterMap fun e =>
    match e with
    | Event.installAttempt m => some m
    | _ => none

namespace clean_pycache

/-- The `PathType` enum from `src/src/bin/huak/commands/clean_pycache.rs`. -/
inductive PathType where
  | Directory
  | File
deriving DecidableEq

/-- The `DeletePath` struct from `src/src/bin/huak/commands/clean_pycache.rs`. -/
structure DeletePath where
  path_type : PathType
  glob : String
deriving DecidableEq

/-- `get_delete_patterns` from `src/src/bin/huak/commands/clean_pycache.rs`, in
declared order. -/
def get_delete_patterns : List DeletePath :=
  [⟨PathType.Directory, "**/__pycache__"⟩, ⟨PathType.File, "**/*.pyc"⟩]

/-- The ambient filesystem of a cleanup run: `expand` is `glob(..)` followed by
walking the returned `Paths` iterator — either a pattern error, or the ordered
list of walk entries, each a matched path or a walk (`GlobError`) failure — and
`delete` is `remove_dir_all` / `remove_file` keyed by the `PathType` it is
invoked with. -/
structure CleanEnv where
  expand : String → Except String (List (Except String (List String)))
  delete : PathType → List String → Except String Unit

/-- The mutable state of `run` from
`src/src/bin/huak/commands/clean_pycache.rs`: the aggregate `success` flag, the
last stored `error`, and additionally the ordered trace of deletion attempts
(each recorded as the `PathType` and path passed to the deletion operation). -/
structure CleanState where
  success : Bool
  error : Option String
  attempts : List (PathType × List String)
deriving DecidableEq

/-- The `CliError` struct as constructed by `run` (its defining module is not
under `src/`, but `run` builds it literally as
`CliError { error, exit_code: 2 }`): an optional underlying cause and an exit
code. -/
structure CliError where
  error : Option String
  exit_code : Nat
deriving DecidableEq

/-- The body of the inner `for path in paths` loop of `run`: a walk error
records the cause and clears the flag without any deletion; a matched path is
deleted with the operation chosen by the pattern's declared `path_type`
(recorded as an attempt), a deletion failure recording the cause and clearing
the flag.  No entry stops the iteration. -/
def entryStep (env : CleanEnv) (pt : PathType) (st : CleanState)
    (entry : Except String (List String)) : CleanState :=
  match entry with
  | .ok p =>
    match env.delete pt p with
    | .ok _ => { st with attempts := st.attempts ++ [(pt, p)] }
    | .error e => ⟨false, some e, st.attempts ++ [(pt, p)]⟩
  | .error e => ⟨false, some e, st.attempts⟩

/-- One iteration of the outer `for i in get_delete_patterns()` loop of `run`:
the source computes `success = success && match files { .. }`, and `&&` is
lazy, so when `success` is already false the whole match — the walk and every
deletion for this pattern — is skipped; when the expansion itself fails
(`_ => false`) the flag clears but no cause is recorded. -/
def patternStep (env : CleanEnv) (st : CleanState) (pat : DeletePath) : CleanState :=
  if st.success then
    match env.expand pat.glob with
    | .ok entries => entries.foldl (entryStep env pat.path_type) st
    | .error _ => { st with success := false }
  else st

/-- The state after the pattern loop of `run`, starting from
`success = true`, no error, no attempts. -/
def cleanFinal (env : CleanEnv) : CleanState :=
  get_delete_patterns.foldl (patternStep env) ⟨true, none, []⟩

/-- `run` from `src/src/bin/huak/commands/clean_pycache.rs`: `Ok(())` when the
aggregate flag survived, otherwise `CliError { error, exit_code: 2 }` with the
last stored cause. -/
def run (env : CleanEnv) : Except CliError Unit :=
  if (cleanFinal env).success then .ok () else .error ⟨(cleanFinal env).error, 2⟩

/-- Whether one walk entry is fully successful: a matched path whose deletion
(by the given kind) succeeds. -/
def entryOk (env : CleanEnv) (pt : PathType) (entry : Except String (List String)) : Bool :=
  match entry with
  | .ok p =>
    match env.delete pt p with
    | .ok _ => true
    | .error _ => false
  | .error _ => false

/-- Whether a pattern is fully successful: its expansion succeeds and every
entry is fully successful. -/
def patternOk (env : CleanEnv) (pat : DeletePath) : Bool :=
  match env.expand pat.glob with
  | .ok entries => entries.all (entryOk env pat.path_type)
  | .error _ => false

/-- The matched paths of a list of walk entries, in order. -/
def okList : List (Except String (List String)) → List (List String) :=
  List.filterMap fun e =>
    match e with
    | .ok p => some p
    | .error _ => none

/-- The matches a pattern expands to (empty when the expansion fails, since a
failed expansion is never walked). -/
def matchPaths (env : CleanEnv) (pat : DeletePath) : List (List String) :=
  match env.expand pat.glob with
  | .ok entries => okList entries
  | .error _ => []

/-- The causes captured while walking a list of entries, in order: each walk
error, and each deletion failure of a matched path. -/
def capsList (env : CleanEnv) (pt : PathType) :
    List (Except String (List String)) → List String :=
  List.filterMap fun e =>
    match e with
    | .ok p =>
      match env.delete pt p with
      | .ok _ => none
      | .error s => some s
    | .error s => some s

/-- The causes a pattern's walk captures (empty when the expansion fails: the
`_ => false` arm records no cause). -/
def capturedCauses (env : CleanEnv) (pat : DeletePath) : List String :=
  match env.expand pat.glob with
  | .ok entries => capsList env pat.path_type entries
  | .error _ => []

/-- Last-wins accumulation: the result is the last element of the list when
there is one, the default otherwise. -/
def lastOr : List String → Option String → Option String
  | [], d => d
  | e :: rest, _ => lastOr rest (some e)

/-- The directory pattern of the table. -/
def dirPattern : DeletePath :=
  ⟨PathType.Directory, "**/__pycache__"⟩

/-- The file pattern of the table. -/
def pycPattern : DeletePath :=
  ⟨PathType.File, "**/*.pyc"⟩

/-- The cause a failing run reports: the last cause captured by the directory
pattern when that pattern failed (the file pattern being skipped), else the
last cause captured by the file pattern. -/
def lastCause (env : CleanEnv) : Option String :=
  if patternOk env dirPattern then lastOr (capturedCauses env pycPattern) none
  else lastOr (capturedCauses env dirPattern) none

end clean_pycache

/-- A concrete probe: a filesystem containing exactly `/a/.venv` and
`/a/b/venv`. -/
def probeNested : List String → Except String Bool := fun p =>
  .ok (p == ["a", ".venv"] || p == ["a", "b", "venv"])

/-- A concrete probe: a filesystem containing exactly `/a/.venv`. -/
def probeOuterOnly : List String → Except String Bool := fun p =>
  .ok (p == ["a", ".venv"])

/-- A concrete probe that fails with an I/O error when asked about
`/a/b/.venv`, and otherwise reports a filesystem containing exactly
`/a/b/venv`. -/
def probeIoErr : List String → Except String Bool := fun p =>
  if p == ["a", "b", ".venv"] then .error "io failure"
  else .ok (p == ["a", "b", "venv"])

/-- A world whose venv root `/env` exists with `pip` present under `/env/bin`,
on a non-Windows OS; every external command succeeds. -/
def pipWorld : World :=
  ⟨fun p => p == ["env"] || p == ["env", "bin", "pip"], fun _ _ _ => .ok (), [], "linux"⟩

/-- A world where only the venv root `/env` exists — in particular `pip` is
absent from the executable directory; every external command succeeds. -/
def piplessWorld : World :=
  ⟨fun p => p == ["env"], fun _ _ _ => .ok (), [], "linux"⟩

/-- The venv rooted at `/env`. -/
def envVenv : Venv :=
  ⟨["env"]⟩

/-- A world where no path exists and every external command fails with the
underlying cause "boom". -/
def boomWorld : World :=
  ⟨fun _ => false, fun _ _ _ => .error (some "boom"), [], "linux"⟩

/-- A world where every path exists and every external command succeeds. -/
def allWorld : World :=
  ⟨fun _ => true, fun _ _ _ => .ok (), [], "linux"⟩

namespace clean_pycache

/-- A concrete cleanup filesystem: one `__pycache__` directory match whose
deletion fails (locked), and one `.pyc` file match whose deletion would
succeed. -/
def lockedDirEnv : CleanEnv :=
  ⟨fun g =>
      if g == "**/__pycache__" then .ok [.ok [ "proj", "__pycache__" ]]
      else if g == "**/*.pyc" then .ok [.ok ["proj", "a.pyc"]]
      else .ok [],
    fun pt _ =>
      match pt with
      | PathType.Directory => .error "locked"
      | PathType.File => .ok ()⟩

/-- A concrete cleanup filesystem: no directory matches, and two `.pyc` file
matches whose deletions fail with distinct causes. -/
def twoFailEnv : CleanEnv :=
  ⟨fun g =>
      if g == "**/*.pyc" then .ok [.ok ["x", "a.pyc"], .ok ["x", "b.pyc"]]
      else .ok [],
    fun pt p =>
      match pt with
      | PathType.File => .error (if p == ["x", "a.pyc"] then "eacces a" else "eacces b")
      | PathType.Directory => .ok ()⟩

/-- A concrete cleanup filesystem: one deletable `__pycache__` directory match
and nothing else. -/
def oneDirEnv : CleanEnv :=
  ⟨fun g => if g == "**/__pycache__" then .ok [.ok ["x", "__pycache__"]] else .ok [],
    fun _ _ => .ok ()⟩

end clean_pycache

namespace clean_pycache

/-- The inner walk loop, characterized: starting from any state, the final flag
is the starting flag conjoined with every entry being fully successful, the
final error is the last captured cause (falling back to the starting error),
and the deletion attempts extend the starting ones with one attempt per
matched path — every match is attempted, failures notwithstanding. -/
theorem foldl_entryStep (env : CleanEnv) (pt : PathType) :
    ∀ (entries : List (Except String (List String))) (st : CleanState),
    entries.foldl (entryStep env pt) st =
      ⟨st.success && entries.all (entryOk env pt),
       lastOr (capsList env pt entries) st.error,
       st.attempts ++ (okList entries).map fun p => (pt, p)⟩ := by
  intro entries
  induction entries with
  | nil =>
    intro st
    cases st
    simp [okList, capsList, lastOr]
  | cons e rest ih =>
    intro st
    cases e with
    | ok p =>
      cases hd : env.delete pt p with
      | ok u =>
        simp [List.foldl_cons, entryStep, hd, ih, entryOk, okList, capsList, lastOr,
          List.all_cons, List.filterMap_cons]
      | error s =>
        simp [List.foldl_cons, entryStep, hd, ih, entryOk, okList, capsList, lastOr,
          List.all_cons, List.filterMap_cons]
    | error s =>
      simp [List.foldl_cons, entryStep, ih, entryOk, okList, capsList, lastOr,
        List.all_cons, List.filterMap_cons]

/-- A fully successful walk captures no cause. -/
theorem capsList_eq_nil (env : CleanEnv) (pt : PathType) :
    ∀ entries, entries.all (entryOk env pt) = true → capsList env pt entries = [] := by
  intro entries
  induction entries with
  | nil => intro _; rfl
  | cons e rest ih =>
    intro h
    rw [List.all_cons, Bool.and_eq_true] at h
    cases e with
    | ok p =>
      cases hd : env.delete pt p with
      | ok u => simpa [capsList, List.filterMap_cons, hd] using ih h.2
      | error s => rw [entryOk, hd] at h; exact absurd h.1 (by simp)
    | error s => exact absurd h.1 (by simp [entryOk])

/-- The whole pattern loop, characterized: when the directory pattern is fully
successful the file pattern is walked as well, and the run's outcome is the
file pattern's; otherwise the file pattern is skipped entirely (lazy `&&`) and
the state is whatever the directory pattern left. -/
theorem cleanFinal_eq (env : CleanEnv) :
    cleanFinal env =
      if patternOk env dirPattern then
        ⟨patternOk env pycPattern,
         lastOr (capturedCauses env pycPattern) none,
         ((matchPaths env dirPattern).map fun p => (PathType.Directory, p)) ++
           (matchPaths env pycPattern).map fun p => (PathType.File, p)⟩
      else
        ⟨false,
         lastOr (capturedCauses env dirPattern) none,
         (matchPaths env dirPattern).map fun p => (PathType.Directory, p)⟩ := by
  have hstep : cleanFinal env =
      patternStep env (patternStep env ⟨true, none, []⟩ dirPattern) pycPattern := rfl
  rw [hstep]
  cases hdir : env.expand "**/__pycache__" with
  | error s =>
    have h1 : patternStep env ⟨true, none, []⟩ dirPattern = ⟨false, none, []⟩ := by
      simp [patternStep, dirPattern, hdir]
    rw [h1]
    simp [patternStep, patternOk, dirPattern, hdir, capturedCauses, matchPaths, lastOr]
  | ok entries =>
    have h1 : patternStep env ⟨true, none, []⟩ dirPattern =
        ⟨entries.all (entryOk env PathType.Directory),
         lastOr (capsList env PathType.Directory entries) none,
         (okList entries).map fun p => (PathType.Directory, p)⟩ := by
      simp [patternStep, dirPattern, hdir, foldl_entryStep]
    rw [h1]
    have hok : patternOk env dirPattern = entries.all (entryOk env PathType.Directory) := by
      simp [patternOk, dirPattern, hdir]
    cases hall : entries.all (entryOk env PathType.Directory) with
    | false =>
      rw [hok, hall]
      simp only [Bool.false_eq_true, if_false]
      simp [patternStep, capturedCauses, matchPaths, dirPattern, hdir]
    | true =>
      have hcaps : capsList env PathType.Directory entries = [] :=
        capsList_eq_nil env PathType.Directory entries hall
      rw [hok, hall, hcaps]
      simp only [if_true]
      cases hpyc : env.expand "**/*.pyc" with
      | error s2 =>
        simp [patternStep, pycPattern, hpyc, patternOk, capturedCauses, matchPaths,
          dirPattern, hdir, lastOr]
      | ok entries2 =>
        simp [patternStep, pycPattern, hpyc, foldl_entryStep, patternOk, capturedCauses,
          matchPaths, dirPattern, hdir, lastOr]

end clean_pycache

namespace clean_pycache

/-- C1 (counterexample): in a tree with one locked `__pycache__` directory match
and one `.pyc` file match, the file match is never attempted: the failure on
the directory pattern clears the aggregate flag, and the lazy `&&` in
`success = success && match files { .. }` then skips the whole file pattern,
contrary to the claim that every match of every pattern is attempted. -/
theorem clean_second_pattern_never_attempted_cex :
    matchPaths lockedDirEnv pycPattern = [["proj", "a.pyc"]] ∧
    (cleanFinal lockedDirEnv).attempts = [(PathType.Directory, ["proj", "__pycache__"])] ∧
    (PathType.File, ["proj", "a.pyc"]) ∉ (cleanFinal lockedDirEnv).attempts := by
  exact ⟨by decide, by decide, by decide⟩

/-- C1 (amended): within a single pattern the cleanup never short-circuits —
every match of a reached pattern is attempted, failures on earlier matches or
walk entries notwithstanding — but any failure recorded by the first
(directory) pattern prevents every deletion attempt of the second (file)
pattern, because the aggregate flag is combined with the lazy `&&`. -/
theorem clean_attempts_characterization (env : CleanEnv) :
    (cleanFinal env).attempts =
      ((matchPaths env dirPattern).map fun p => (PathType.Directory, p)) ++
        (if patternOk env dirPattern then
          (matchPaths env pycPattern).map fun p => (PathType.File, p)
        else []) := by
  rw [cleanFinal_eq]
  cases h : patternOk env dirPattern <;> simp [h]

/-- C7: the cleanup returns success exactly when every pattern expansion, walk
entry and deletion succeeded (in particular on a tree with zero matches); a
failing run reports exit code 2 and carries only the most recently observed
captured cause — earlier causes are overwritten, and a skipped or
expansion-failed pattern contributes none. -/
theorem clean_run_success_iff_last_cause (env : CleanEnv) :
    (run env = Except.ok () ↔ get_delete_patterns.all (patternOk env) = true) ∧
    ∀ c : CliError, run env = Except.error c → c.exit_code = 2 ∧ c.error = lastCause env := by
  have hall : get_delete_patterns.all (patternOk env) =
      (patternOk env dirPattern && patternOk env pycPattern) := by
    simp [get_delete_patterns, dirPattern, pycPattern]
  have hsucc : (cleanFinal env).success = (patternOk env dirPattern && patternOk env pycPattern) := by
    rw [cleanFinal_eq]
    cases h : patternOk env dirPattern <;> simp [h]
  have herr : (cleanFinal env).error = lastCause env := by
    rw [cleanFinal_eq, lastCause]
    cases h : patternOk env dirPattern <;> simp [h]
  constructor
  · rw [run, hall, hsucc]
    cases hb : (patternOk env dirPattern && patternOk env pycPattern) <;> simp [hb]
  · intro c hc
    rw [run, hsucc] at hc
    cases hb : (patternOk env dirPattern && patternOk env pycPattern) <;> rw [hb] at hc
    · simp only [Bool.false_eq_true, if_false] at hc
      have : (⟨(cleanFinal env).error, 2⟩ : CliError) = c := by
        exact Except.error.inj hc
      rw [← this]
      exact ⟨rfl, herr⟩
    · simp at hc

/-- C9: the pattern table is iterated in declared order — the directory pattern
`**/__pycache__` first, then the file pattern `**/*.pyc` — and every deletion
attempt uses the kind declared by the pattern whose expansion produced the
path (the matched path's actual kind is never probed: `delete` receives the
declared `path_type` only). -/
theorem clean_declared_kind :
    get_delete_patterns = [⟨PathType.Directory, "**/__pycache__"⟩, ⟨PathType.File, "**/*.pyc"⟩] ∧
    ∀ (env : CleanEnv) (pt : PathType) (p : List String),
      (pt, p) ∈ (cleanFinal env).attempts →
        (pt = PathType.Directory ∧ p ∈ matchPaths env dirPattern) ∨
        (pt = PathType.File ∧ p ∈ matchPaths env pycPattern) := by
  refine ⟨rfl, ?_⟩
  intro env pt p hmem
  rw [cleanFinal_eq] at hmem
  cases h : patternOk env dirPattern with
  | false =>
    rw [h] at hmem
    simp only [Bool.false_eq_true, if_false, List.mem_map] at hmem
    obtain ⟨q, hq, heq⟩ := hmem
    cases heq
    exact Or.inl ⟨rfl, hq⟩
  | true =>
    rw [h] at hmem
    simp only [if_true, List.mem_append, List.mem_map] at hmem
    rcases hmem with ⟨q, hq, heq⟩ | ⟨q, hq, heq⟩
    · cases heq
      exact Or.inl ⟨rfl, hq⟩
    · cases heq
      exact Or.inr ⟨rfl, hq⟩

end clean_pycache

/-- C2 (counterexample): with exactly `/a/.venv` and `/a/b/venv` present,
locating from `/a/b` returns `/a/.venv`, not `/a/b/venv` as the claim states:
the candidate-name loop is the outer one, so `.venv` at a farther ancestor
beats `venv` at the nearest one. -/
theorem venv_find_nested_cex :
    Venv.find probeNested ["a", "b"] = .ok (Venv.new ["a", ".venv"]) ∧
    Venv.find probeNested ["a", "b"] ≠ .ok (Venv.new ["a", "b", "venv"]) := by
  exact ⟨by decide, by decide⟩

/-- C2 (amended): the locator iterates candidate names in the outer loop and
ancestor depths in the inner loop, so a `.venv` hit at any ancestor within the
bound wins over any `venv` hit; with both `/a/.venv` and `/a/b/venv` present,
locating from `/a/b` returns `/a/.venv`, while locating from `/a/b/c` with only
`/a/.venv` present still returns `/a/.venv` (nearest hit of the per-name
search). -/
theorem venv_find_name_priority :
    (∀ (probe : List String → Except String Bool) (start p : List String),
        search_parents_for_filepath probe start ".venv" DEFUALT_SEARCH_STEPS =
          .ok (some p) →
        Venv.find probe start = .ok (Venv.new p)) ∧
    Venv.find probeNested ["a", "b"] = .ok (Venv.new ["a", ".venv"]) ∧
    Venv.find probeOuterOnly ["a", "b", "c"] = .ok (Venv.new ["a", ".venv"]) := by
  refine ⟨?_, by decide, by decide⟩
  intro probe start p h
  simp [Venv.find, findLoop, h]

/-- Witness for the name-priority theorem at a concrete probe. -/
theorem venv_find_name_priority_witness :
    Venv.find (fun _ => Except.ok true) ["a", "b"] = .ok (Venv.new ["a", "b", ".venv"]) :=
  venv_find_name_priority.1 (fun _ => Except.ok true) ["a", "b"] ["a", "b", ".venv"] rfl

/-- C8: when neither candidate name is found within the bounded parent search,
the locator fails with the generic NotFound error naming the searched root
(its totality is the bounded termination). -/
theorem venv_find_not_found (probe : List String → Except String Bool)
    (start : List String)
    (h1 : search_parents_for_filepath probe start ".venv" DEFUALT_SEARCH_STEPS = .ok none)
    (h2 : search_parents_for_filepath probe start "venv" DEFUALT_SEARCH_STEPS = .ok none) :
    Venv.find probe start = .error ("could not find venv from " ++ pathStr start) := by
  simp [Venv.find, findLoop, h1, h2]

/-- Witness for the NotFound theorem on an empty filesystem. -/
theorem venv_find_not_found_witness :
    Venv.find (fun _ => Except.ok false) ["a", "b"] =
      .error ("could not find venv from " ++ pathStr ["a", "b"]) :=
  venv_find_not_found (fun _ => Except.ok false) ["a", "b"] rfl rfl

/-- C10: the locator discards any error of the per-name search — an erroring
`.venv` search still falls through to `venv` — and the only error it ever
returns to the caller is the generic "could not find venv from <root>" one,
never an underlying I/O error. -/
theorem venv_find_discards_search_errors (probe : List String → Except String Bool)
    (start : List String) :
    (∀ e, Venv.find probe start = .error e →
        e = "could not find venv from " ++ pathStr start) ∧
    (∀ msg p,
        search_parents_for_filepath probe start ".venv" DEFUALT_SEARCH_STEPS = .error msg →
        search_parents_for_filepath probe start "venv" DEFUALT_SEARCH_STEPS = .ok (some p) →
        Venv.find probe start = .ok (Venv.new p)) := by
  constructor
  · intro e h
    rw [Venv.find] at h
    cases hf : findLoop probe start [".venv", "venv"] with
    | some path => rw [hf] at h; exact absurd h (by simp)
    | none =>
      rw [hf] at h
      exact (Except.error.inj h).symm
  · intro msg p h1 h2
    simp [Venv.find, findLoop, h1, h2]

/-- Witness for the error-discarding theorem: the `.venv` probe errors, yet the
`venv` candidate is still found. -/
theorem venv_find_discards_search_errors_witness :
    Venv.find probeIoErr ["a", "b"] = .ok (Venv.new ["a", "b", "venv"]) :=
  (venv_find_discards_search_errors probeIoErr ["a", "b"]).2
    "io failure" ["a", "b", "venv"] rfl rfl

/-- C4: creation is idempotent — when the root path already exists, `create`
returns success immediately, runs no external command, and (the model being
pure and event-free here) leaves the filesystem untouched. -/
theorem venv_create_idempotent (w : World) (v : Venv)
    (h : w.pathExists v.path = true) :
    Venv.create v w = ([], Except.ok ()) := by
  simp [Venv.create, h]

/-- Witness for idempotent creation on an existing path. -/
theorem venv_create_idempotent_witness :
    Venv.create (Venv.new ["a", ".venv"]) allWorld = ([], Except.ok ()) :=
  venv_create_idempotent allWorld (Venv.new ["a", ".venv"]) rfl

/-- C6: when the root does not exist, a root without a parent fails with the
InvalidPath-style error; otherwise `python -m venv <name>` runs with the
parent as working directory, success propagating, and a failure propagating
its underlying cause when present, else the generic failed-to-create error. -/
theorem venv_create_absent (w : World) (v : Venv)
    (h : w.pathExists v.path = false) :
    (v.path = [] → Venv.create v w = ([], .error "invalid venv path")) ∧
    (∀ name, v.path.getLast? = some name →
      (w.runOk "python" ["-m", "venv", name] v.path.dropLast = .ok () →
        Venv.create v w =
          ([Event.ran "python" ["-m", "venv", name] v.path.dropLast], .ok ())) ∧
      (∀ c, w.runOk "python" ["-m", "venv", name] v.path.dropLast = .error c →
        Venv.create v w =
          ([Event.ran "python" ["-m", "venv", name] v.path.dropLast],
            .error (c.getD "failed to create venv")))) := by
  refine ⟨?_, ?_⟩
  · intro hnil
    have h0 : w.pathExists [] = false := by rw [← hnil]; exact h
    simp [Venv.create, hnil, h0]
  · intro name hlast
    refine ⟨?_, ?_⟩
    · intro hok
      simp [Venv.create, h, hlast, hok]
    · intro c hc
      simp [Venv.create, h, hlast, hc]

/-- Witness for creation of an absent venv whose external command fails with a
cause. -/
theorem venv_create_absent_witness :
    Venv.create (Venv.new ["home", "x", ".venv"]) boomWorld =
      ([Event.ran "python" ["-m", "venv", ".venv"] ["home", "x"]], .error "boom") :=
  ((venv_create_absent boomWorld (Venv.new ["home", "x", ".venv"]) rfl).2
    ".venv" rfl).2 (some "boom") rfl

/-- C3 (amended): provided the package-manager module `pip` is present under the
executable directory, dispatching a module whose path exists triggers zero
install attempts, and dispatching a missing module triggers exactly one
install attempt, placed before everything else in the trace (in particular
before the final invocation). -/
theorem exec_module_lazy (w : World) (v : Venv) (module : String)
    (args start : List String) (fuel : Nat)
    (hv : w.pathExists v.path = true)
    (hpip : w.pathExists (Venv.bin_path v w ++ ["pip"]) = true) :
    (w.pathExists (Venv.bin_path v w ++ [module]) = true →
      installEvents (Venv.exec_module v w (fuel + 1) module args start).1 = []) ∧
    (w.pathExists (Venv.bin_path v w ++ [module]) = false →
      installEvents (Venv.exec_module v w (fuel + 1 + 1) module args start).1 = [module] ∧
      (Venv.exec_module v w (fuel + 1 + 1) module args start).1.head? =
        some (Event.installAttempt module)) := by
  have hcreate : Venv.create v w = ([], Except.ok ()) := by simp [Venv.create, hv]
  constructor
  · intro hmod
    simp only [Venv.exec_module, hcreate]
    simp only [hmod, if_true]
    cases hr : w.runOk (pathStr (Venv.bin_path v w ++ [module])) args start <;>
      simp [hr, installEvents]
  · intro hmod
    simp only [Venv.exec_module, hcreate]
    simp only [hmod, hpip, if_true, Bool.false_eq_true, if_false]
    cases hr1 : w.runOk (pathStr (Venv.bin_path v w ++ ["pip"]))
        ["install", module_str (PythonPackage.new module)] w.cwd with
    | error e1 => simp [hr1, installEvents]
    | ok u1 =>
      cases hr2 : w.runOk (pathStr (Venv.bin_path v w ++ [module])) args start <;>
        simp [hr1, hr2, installEvents]

/-- Witness for lazy provisioning: dispatching the missing module `black` in a
world where `pip` is present triggers exactly one install attempt, first. -/
theorem exec_module_lazy_witness :
    installEvents (Venv.exec_module envVenv pipWorld 2 "black" [] []).1 = ["black"] ∧
    (Venv.exec_module envVenv pipWorld 2 "black" [] []).1.head? =
      some (Event.installAttempt "black") :=
  (exec_module_lazy pipWorld envVenv "black" [] [] 0 rfl rfl).2 rfl

/-- When the venv root exists but `pip` itself is absent, dispatching `pip`
recurses through `install_package` forever: at every fuel bound the trace is
exactly that many install attempts for `pip` and the invocation is never
reached. -/
theorem exec_module_pipless (args start : List String) :
    ∀ fuel, Venv.exec_module envVenv piplessWorld fuel "pip" args start =
      (List.replicate fuel (Event.installAttempt "pip"), Except.error "recursion limit") := by
  intro fuel
  induction fuel generalizing args start with
  | zero => rfl
  | succ n ih =>
    have h1 : Venv.create envVenv piplessWorld = ([], Except.ok ()) := by decide
    have h2 : Venv.bin_path envVenv piplessWorld = ["env", "bin"] := by decide
    have h3 : piplessWorld.pathExists (["env", "bin"] ++ ["pip"]) = false := by decide
    simp only [Venv.exec_module, h1, h2, h3, Bool.false_eq_true, if_false, ih,
      List.replicate_succ]
    rfl

/-- C3 (counterexample): in a world where the venv root exists but `pip` is
absent from the executable directory, dispatching the missing module `pip`
does not trigger exactly one install attempt: already within the fuel-3
truncation of the run (whose trace is an initial segment of the untruncated
one) three install attempts occur and the invocation is never reached. -/
theorem exec_module_not_exactly_one_attempt_cex :
    installEvents (Venv.exec_module envVenv piplessWorld 3 "pip" [] []).1 =
      ["pip", "pip", "pip"] ∧
    (Venv.exec_module envVenv piplessWorld 3 "pip" [] []).2 =
      Except.error "recursion limit" ∧
    (["pip", "pip", "pip"] : List String) ≠ ["pip"] := by
  exact ⟨by decide, by decide, by decide⟩

/-- C5: with the venv and `pip` present, installing a package runs exactly one
external command, the `pip` executable with `install` and the bare name when
the version is empty, `name==version` (exact pin) otherwise, from the current
working directory. -/
theorem install_package_pin (w : World) (v : Venv) (d : PythonPackage) (fuel : Nat)
    (hv : w.pathExists v.path = true)
    (hpip : w.pathExists (Venv.bin_path v w ++ ["pip"]) = true) :
    (Venv.install_package v w (fuel + 1) d).1 =
      [Event.ran (pathStr (Venv.bin_path v w ++ ["pip"]))
        ["install", if d.version = "" then d.name else d.name ++ "==" ++ d.version]
        w.cwd] := by
  have hcreate : Venv.create v w = ([], Except.ok ()) := by simp [Venv.create, hv]
  rw [Venv.install_package]
  simp only [Venv.exec_module, hcreate]
  simp only [hpip, if_true]
  cases hr : w.runOk (pathStr (Venv.bin_path v w ++ ["pip"]))
      ["install", module_str d] w.cwd <;>
    simp [hr, module_str]

/-- Witness for version pinning: name `foo`, version `1.2.3` produces the
invocation argument `foo==1.2.3`. -/
theorem install_package_pin_witness :
    (Venv.install_package (Venv.new ["env"]) allWorld 1 ⟨"foo", "1.2.3"⟩).1 =
      [Event.ran (pathStr (Venv.bin_path (Venv.new ["env"]) allWorld ++ ["pip"]))
        ["install", "foo==1.2.3"] allWorld.cwd] :=
  install_package_pin allWorld (Venv.new ["env"]) ⟨"foo", "1.2.3"⟩ 0 rfl rfl

namespace clean_pycache

/-- Witness for the run-outcome theorem at a concrete failing run: two file
deletions fail and only the later cause is reported, with exit code 2. -/
theorem clean_run_success_iff_last_cause_witness :
    (⟨some "eacces b", 2⟩ : CliError).exit_code = 2 ∧
    (⟨some "eacces b", 2⟩ : CliError).error = lastCause twoFailEnv :=
  (clean_run_success_iff_last_cause twoFailEnv).2 ⟨some "eacces b", 2⟩ (by decide)

/-- Witness for the declared-kind theorem at a concrete attempt. -/
theorem clean_declared_kind_witness :
    (PathType.Directory = PathType.Directory ∧
      ["x", "__pycache__"] ∈ matchPaths oneDirEnv dirPattern) ∨
    (PathType.Directory = PathType.File ∧
      ["x", "__pycache__"] ∈ matchPaths oneDirEnv pycPattern) :=
  clean_declared_kind.2 oneDirEnv PathType.Directory ["x", "__pycache__"] (by decide)

end clean_pycache
